import Mathlib

/-!
Verification development for the bottomless replicator core of
libsql-extended (src/bottomless/src/replicator.rs and
src/bottomless/src/read.rs).  Rust code is shallowly embedded: machine
integers become Nat with explicit reductions modulo two to the word width
where overflow matters, fallible calls return Option or Except, and the
stateful counter updates of the Replicator become explicit state passing
plus a step relation.  Support modules of the repository that are not
present under src/ (wal.rs, uuid_utils.rs, backup.rs, transaction_cache.rs)
are modelled from the specification where a claim needs them; each such
definition carries a doc comment saying so.
-/

deriving instance DecidableEq for Except

namespace Bottomless

/-- Modulus of the u32 machine integers used by the frame counters. -/
def U32 : Nat := 2 ^ 32

/-- Modulus of u64 machine integers. -/
def U64 : Nat := 2 ^ 64

/-- Wrapping u64 subtraction, as Rust release-mode `a - b` on u64 values
(both arguments already reduced below 2^64). -/
def u64sub (a b : Nat) : Nat := (a + U64 - b % U64) % U64

/-- Wrapping u32 subtraction on values already below 2^32. -/
def u32sub (a b : Nat) : Nat := (a + U32 - b % U32) % U32

/-- Reinterpretation of an i64 as a u64 (the `as u64` cast in
`restore_from`): two's complement representative in [0, 2^64). -/
def i64ToU64 (t : Int) : Nat := (t % (U64 : Int)).toNat

/-- Compression kinds recognised by the replicator
(replicator.rs, enum CompressionKind). -/
inductive CompressionKind where
  | none
  | gzip
  deriving DecidableEq, Repr

/-- CompressionKind::parse from replicator.rs: accepts gz, gzip, raw and
the empty string; anything else is rejected. -/
def CompressionKind.parse (kind : List Char) : Option CompressionKind :=
  if kind = ['g', 'z'] ∨ kind = ['g', 'z', 'i', 'p'] then some CompressionKind.gzip
  else if kind = ['r', 'a', 'w'] ∨ kind = [] then some CompressionKind.none
  else Option.none

/-- Display for CompressionKind from replicator.rs: None prints raw,
Gzip prints gz. -/
def CompressionKind.display : CompressionKind → List Char
  | CompressionKind.none => ['r', 'a', 'w']
  | CompressionKind.gzip => ['g', 'z']

/-- Decimal rendering of a nonnegative machine integer, as produced by
Rust's Display for u32 and u64 (no sign, no padding, 0 prints as a single
zero digit). -/
def natChars (n : Nat) : List Char :=
  if n = 0 then ['0']
  else ((Nat.digits 10 n).reverse.map fun d => Char.ofNat (48 + d))

/-- Accumulating decimal parser: consumes decimal digits, failing on any
non-digit character. -/
def parseDigitsAux : List Char → Nat → Option Nat
  | [], acc => some acc
  | c :: cs, acc =>
      if 48 ≤ c.toNat ∧ c.toNat ≤ 57 then parseDigitsAux cs (acc * 10 + (c.toNat - 48))
      else none

/-- Rust's unsigned from_str body after the optional sign: at least one
digit, all digits. -/
def parseDigits (l : List Char) : Option Nat :=
  if l = [] then none else parseDigitsAux l 0

/-- Rust's unsigned integer from_str: an optional leading plus sign
followed by one or more decimal digits. -/
def parseUNat (l : List Char) : Option Nat :=
  match l with
  | c :: rest => if c = '+' then parseDigits rest else parseDigits (c :: rest)
  | [] => parseDigits []

/-- u32::from_str: decimal parse plus the overflow check. -/
def parseU32 (l : List Char) : Option Nat :=
  match parseUNat l with
  | some n => if n < U32 then some n else none
  | Option.none => none

/-- u64::from_str: decimal parse plus the overflow check. -/
def parseU64 (l : List Char) : Option Nat :=
  match parseUNat l with
  | some n => if n < U64 then some n else none
  | Option.none => none

/-- Index of the last occurrence of a character in a list (Rust str::rfind,
restricted to single-character patterns as used by parse_frame_range). -/
def rfindIdx (c : Char) : List Char → Option Nat
  | [] => none
  | x :: xs =>
      match rfindIdx c xs with
      | some i => some (i + 1)
      | Option.none => if x = c then some 0 else none

/-- Body of Replicator::parse_frame_range from replicator.rs applied to
the part of the key after the last slash: split at the last two dashes
and the last dot, parsing first frame, last frame, timestamp and
compression kind.  Rust slicing with inverted bounds would panic; the
embedding uses truncating subtraction there, which agrees with the
source on every key whose delimiters are ordered (all keys considered
in the claims). -/
def parseFrameSuffix (frameSuffix : List Char) : Option (Nat × Nat × Nat × CompressionKind) :=
  match rfindIdx '-' frameSuffix with
    | Option.none => none
    | some timestampDelim =>
      match rfindIdx '-' (frameSuffix.take timestampDelim) with
      | Option.none => none
      | some lastFrameDelim =>
        match rfindIdx '.' frameSuffix with
        | Option.none => none
        | some compressionDelim =>
          match parseU32 (frameSuffix.take lastFrameDelim) with
          | Option.none => none
          | some firstFrameNo =>
            match parseU32 ((frameSuffix.drop (lastFrameDelim + 1)).take
                (timestampDelim - (lastFrameDelim + 1))) with
            | Option.none => none
            | some lastFrameNo =>
              match parseU64 ((frameSuffix.drop (timestampDelim + 1)).take
                  (compressionDelim - (timestampDelim + 1))) with
              | Option.none => none
              | some timestamp =>
                match CompressionKind.parse (frameSuffix.drop (compressionDelim + 1)) with
                | Option.none => none
                | some compressionKind =>
                  some (firstFrameNo, lastFrameNo, timestamp, compressionKind)

/-- Replicator::parse_frame_range from replicator.rs: everything after
the last slash is parsed by parseFrameSuffix above; a key without a
slash is rejected. -/
def parse_frame_range (key : List Char) : Option (Nat × Nat × Nat × CompressionKind) :=
  match rfindIdx '/' key with
  | Option.none => none
  | some frameDelim => parseFrameSuffix (key.drop (frameDelim + 1))

/-- Counter state of a Replicator (replicator.rs, struct Replicator):
next_frame_no and last_sent_frame_no are AtomicU32 cells,
last_committed_frame_no is the latest Ok value on the watch channel.
flushedRanges records the inclusive frame ranges handed to the Copier
since the current generation started (the observable output of the
batching task). -/
structure ReplicatorCounters where
  nextFrameNo : Nat
  lastSentFrameNo : Nat
  lastCommittedFrameNo : Nat
  flushedRanges : List (Nat × Nat)
  deriving DecidableEq, Repr

/-- State after construction in with_options: next_frame_no = 1,
last_sent_frame_no = 0, watch channel initialised with Ok(0). -/
def initCounters : ReplicatorCounters :=
  { nextFrameNo := 1, lastSentFrameNo := 0, lastCommittedFrameNo := 0, flushedRanges := [] }

/-- Replicator::submit_frames: next_frame_no.fetch_add(frame_count) with
u32 wrap-around; the flush trigger it may fire has no effect on the
counters. -/
def submitFrames (s : ReplicatorCounters) (n : Nat) : ReplicatorCounters :=
  { s with nextFrameNo := (s.nextFrameNo + n) % U32 }

/-- One round of the batching task in with_options: read next_frame_no,
swap last_sent_frame_no to next_frame - 1, and if the range
(last_sent_frame + 1)..next_frame is nonempty flush it through the
Copier and publish the result on the committed watcher.  The published
frame number on success is the last frame of the flushed range; WalCopier
(backup.rs, not under src/) is modelled from the spec here: the Copier
flushes the range it is handed and reports its last frame. -/
def batchStep (s : ReplicatorCounters) : ReplicatorCounters :=
  let nf := s.nextFrameNo
  let start := (s.lastSentFrameNo + 1) % U32
  if start < nf then
    { nextFrameNo := nf
      lastSentFrameNo := u32sub nf 1
      lastCommittedFrameNo := u32sub nf 1
      flushedRanges := s.flushedRanges ++ [(start, u32sub nf 1)] }
  else
    { s with lastSentFrameNo := u32sub nf 1 }

/-- Replicator::reset_frames: next_frame_no := frame_no + 1 and
last_sent_frame_no := min(last_sent, frame_no). -/
def resetFrames (s : ReplicatorCounters) (frameNo : Nat) : ReplicatorCounters :=
  { s with
      nextFrameNo := (frameNo + 1) % U32
      lastSentFrameNo := min s.lastSentFrameNo frameNo }

/-- Replicator::register_last_valid_frame: reset the counters when the
registered frame differs from peek_last_valid_frame
(next_frame_no.saturating_sub 1). -/
def registerLastValidFrame (s : ReplicatorCounters) (frame : Nat) : ReplicatorCounters :=
  if frame ≠ s.nextFrameNo - 1 then resetFrames s frame else s

/-- Replicator::set_generation: swaps the generation cell and calls
reset_frames(0); the flushed-range log restarts because subsequent
batches are written under the fresh generation. -/
def setGeneration (s : ReplicatorCounters) : ReplicatorCounters :=
  { resetFrames s 0 with flushedRanges := [] }

/-- One step of a Replicator: any public counter-mutating operation or
one round of the batching task, interleaved atomically. -/
inductive Step : ReplicatorCounters → ReplicatorCounters → Prop where
  | submit_frames (s : ReplicatorCounters) (n : Nat) (h : n < U32) :
      Step s (submitFrames s n)
  | request_flush (s : ReplicatorCounters) : Step s s
  | batch (s : ReplicatorCounters) : Step s (batchStep s)
  | rollback_to_frame (s : ReplicatorCounters) (f : Nat) (h : f < U32) :
      Step s (resetFrames s f)
  | register_last_valid_frame (s : ReplicatorCounters) (f : Nat) (h : f < U32) :
      Step s (registerLastValidFrame s f)
  | set_generation (s : ReplicatorCounters) : Step s (setGeneration s)

/-- Reachability from the freshly constructed replicator. -/
def Reachable (s : ReplicatorCounters) : Prop :=
  Relation.ReflTransGen Step initCounters s

/-- Restricted step relation: only submit_frames (without u32 overflow),
request_flush and batching-task rounds; no counter resets, so the whole
trace stays within one generation. -/
inductive StepNW : ReplicatorCounters → ReplicatorCounters → Prop where
  | submit_frames (s : ReplicatorCounters) (n : Nat) (h : s.nextFrameNo + n < U32) :
      StepNW s (submitFrames s n)
  | request_flush (s : ReplicatorCounters) : StepNW s s
  | batch (s : ReplicatorCounters) : StepNW s (batchStep s)

/-- Reachability under the restricted, overflow-free step relation. -/
def ReachableNW (s : ReplicatorCounters) : Prop :=
  Relation.ReflTransGen StepNW initCounters s

/-- Contiguity of a flushed-range log: each range starts right after the
previous one ends. -/
def ContiguousRanges (l : List (Nat × Nat)) : Prop :=
  List.Chain' (fun r₁ r₂ => r₂.1 = r₁.2 + 1) l

/-- Inductive invariant of the overflow-free, single-generation machine. -/
def CounterInv (s : ReplicatorCounters) : Prop :=
  1 ≤ s.nextFrameNo ∧ s.nextFrameNo < U32 ∧
  s.lastCommittedFrameNo ≤ s.lastSentFrameNo ∧
  s.lastSentFrameNo + 1 ≤ s.nextFrameNo ∧
  ContiguousRanges s.flushedRanges ∧
  (∀ r ∈ s.flushedRanges, r.1 ≤ r.2) ∧
  (∀ r ∈ s.flushedRanges.getLast?, r.2 = s.lastSentFrameNo)

theorem u32sub_one (nf : Nat) (h1 : 1 ≤ nf) (h2 : nf < U32) : u32sub nf 1 = nf - 1 := by
  unfold u32sub
  have h3 : (1 : Nat) % U32 = 1 := by decide
  rw [h3]
  have h4 : nf + U32 - 1 = (nf - 1) + U32 := by omega
  rw [h4, Nat.add_mod_right]
  exact Nat.mod_eq_of_lt (by omega)

theorem counterInv_init : CounterInv initCounters := by
  refine ⟨by decide, by decide, by decide, by decide, ?_, ?_, ?_⟩
  · exact List.chain'_nil
  · intro r hr; cases hr
  · intro r hr; cases hr

theorem counterInv_step {s t : ReplicatorCounters} (hs : CounterInv s) (h : StepNW s t) :
    CounterInv t := by
  obtain ⟨h1, h2, h3, h4, h5, h6, h7⟩ := hs
  cases h with
  | submit_frames n hn =>
      refine ⟨?_, ?_, h3, ?_, h5, h6, h7⟩ <;>
        simp only [submitFrames, Nat.mod_eq_of_lt hn] <;> omega
  | request_flush => exact ⟨h1, h2, h3, h4, h5, h6, h7⟩
  | batch =>
      unfold batchStep
      have hstart : (s.lastSentFrameNo + 1) % U32 = s.lastSentFrameNo + 1 :=
        Nat.mod_eq_of_lt (by omega)
      rw [hstart]
      by_cases hne : s.lastSentFrameNo + 1 < s.nextFrameNo
      · simp only [if_pos hne]
        rw [u32sub_one s.nextFrameNo h1 h2]
        unfold CounterInv
        dsimp only
        refine ⟨h1, h2, le_refl _, by omega, ?_, ?_, ?_⟩
        · refine List.Chain'.append h5 (List.chain'_singleton _) ?_
          intro x hx y hy
          simp only [List.head?_cons, Option.mem_def, Option.some.injEq] at hy
          subst hy
          have := h7 x hx
          simp only [this]
        · intro r hr
          rcases List.mem_append.mp hr with hl | hr2
          · exact h6 r hl
          · simp only [List.mem_singleton] at hr2; subst hr2; simp; omega
        · intro r hr
          rw [List.getLast?_concat] at hr
          simp only [Option.mem_def, Option.some.injEq] at hr
          subst hr; rfl
      · simp only [if_neg hne]
        rw [u32sub_one s.nextFrameNo h1 h2]
        have heq : s.nextFrameNo - 1 = s.lastSentFrameNo := by omega
        rw [heq]
        exact ⟨h1, h2, h3, h4, h5, h6, h7⟩

theorem counterInv_reachable {s : ReplicatorCounters} (h : ReachableNW s) : CounterInv s := by
  induction h with
  | refl => exact counterInv_init
  | tail _ hstep ih => exact counterInv_step ih hstep

/-- C1 (amended).  The counter-chain invariant
last_committed_frame_no ≤ last_sent_frame_no ≤ next_frame_no − 1 holds in
every state reachable from the freshly constructed Replicator by
submit_frames (without u32 overflow), request_flush and batching-task
rounds.  The claim as stated over all operations is false: the
reset-based operations (rollback_to_frame, register_last_valid_frame,
set_generation) can lower last_sent_frame_no below the already published
last_committed_frame_no (see the counterexample theorem). -/
theorem counter_chain_invariant {s : ReplicatorCounters} (h : ReachableNW s) :
    s.lastCommittedFrameNo ≤ s.lastSentFrameNo ∧
      s.lastSentFrameNo ≤ s.nextFrameNo - 1 := by
  obtain ⟨h1, h2, h3, h4, _⟩ := counterInv_reachable h
  exact ⟨h3, by omega⟩

theorem counter_chain_invariant_witness :
    (batchStep (submitFrames initCounters 3)).lastCommittedFrameNo ≤
        (batchStep (submitFrames initCounters 3)).lastSentFrameNo ∧
      (batchStep (submitFrames initCounters 3)).lastSentFrameNo ≤
        (batchStep (submitFrames initCounters 3)).nextFrameNo - 1 :=
  counter_chain_invariant
    (Relation.ReflTransGen.tail
      (Relation.ReflTransGen.tail Relation.ReflTransGen.refl
        (StepNW.submit_frames _ 3 (by decide)))
      (StepNW.batch _))

/-- C1 counterexample.  The trace submit_frames(1); batching round;
set_generation reaches a state with last_committed_frame_no = 1 but
last_sent_frame_no = 0: the chain
last_committed ≤ last_sent ≤ next − 1 fails in a reachable state, so the
claim as stated is false on the code. -/
theorem counter_chain_violation :
    Reachable (setGeneration (batchStep (submitFrames initCounters 1))) ∧
      ¬ ((setGeneration (batchStep (submitFrames initCounters 1))).lastCommittedFrameNo ≤
          (setGeneration (batchStep (submitFrames initCounters 1))).lastSentFrameNo) := by
  constructor
  · exact Relation.ReflTransGen.tail
      (Relation.ReflTransGen.tail
        (Relation.ReflTransGen.tail Relation.ReflTransGen.refl
          (Step.submit_frames _ 1 (by decide)))
        (Step.batch _))
      (Step.set_generation _)
  · decide

/-- C2 (amended).  Within one generation the frame ranges handed by the
batching task to the Copier are contiguous (each range starts right after
the previous one ends, which also makes them strictly increasing) and
every flushed range is nonempty — provided the run uses only
submit_frames (without u32 overflow), request_flush and batching rounds.
As stated over arbitrary operation sequences the claim is false:
rollback_to_frame inside a generation lets the task hand the Copier a
range that overlaps the previous one (see the counterexample theorem). -/
theorem batch_contiguity {s : ReplicatorCounters} (h : ReachableNW s) :
    ContiguousRanges s.flushedRanges ∧ ∀ r ∈ s.flushedRanges, r.1 ≤ r.2 := by
  obtain ⟨_, _, _, _, h5, h6, _⟩ := counterInv_reachable h
  exact ⟨h5, h6⟩

theorem batch_contiguity_witness :
    ContiguousRanges (batchStep (submitFrames initCounters 5)).flushedRanges ∧
      ∀ r ∈ (batchStep (submitFrames initCounters 5)).flushedRanges, r.1 ≤ r.2 :=
  batch_contiguity
    (Relation.ReflTransGen.tail
      (Relation.ReflTransGen.tail Relation.ReflTransGen.refl
        (StepNW.submit_frames _ 5 (by decide)))
      (StepNW.batch _))

/-- C2 counterexample.  The trace submit_frames(5); batching round;
rollback_to_frame(2); submit_frames(3); batching round stays within one
generation and hands the Copier the ranges [1,5] and then [3,5]: the
second range's first frame is 3, not 6, so the flushed ranges are neither
contiguous nor strictly increasing, refuting the claim as stated. -/
theorem batch_contiguity_violation :
    Reachable
        (batchStep (submitFrames (resetFrames (batchStep (submitFrames initCounters 5)) 2) 3)) ∧
      (batchStep (submitFrames
          (resetFrames (batchStep (submitFrames initCounters 5)) 2) 3)).flushedRanges =
        [(1, 5), (3, 5)] ∧
      ¬ ContiguousRanges
          (batchStep (submitFrames
            (resetFrames (batchStep (submitFrames initCounters 5)) 2) 3)).flushedRanges := by
  refine ⟨?_, by decide, ?_⟩
  case refine_2 =>
    intro hcontig
    rw [show (batchStep (submitFrames
        (resetFrames (batchStep (submitFrames initCounters 5)) 2) 3)).flushedRanges =
          [(1, 5), (3, 5)] from by decide] at hcontig
    unfold ContiguousRanges at hcontig
    rw [List.chain'_cons] at hcontig
    exact absurd hcontig.1 (by decide)
  exact Relation.ReflTransGen.tail
    (Relation.ReflTransGen.tail
      (Relation.ReflTransGen.tail
        (Relation.ReflTransGen.tail
          (Relation.ReflTransGen.tail Relation.ReflTransGen.refl
            (Step.submit_frames _ 5 (by decide)))
          (Step.batch _))
        (Step.rollback_to_frame _ 2 (by decide)))
      (Step.submit_frames _ 3 (by decide)))
    (Step.batch _)

/-- Unix timestamp pair as produced by uuid::Timestamp::to_unix —
seconds (u64) and subsecond nanoseconds (u32, below 10^9 for any
timestamp the uuid crate constructs). -/
structure UuidTimestamp where
  seconds : Nat
  nanos : Nat
  deriving DecidableEq, Repr

/-- The large constant 253370761200 that generation_from_timestamp
subtracts unix seconds from to obtain a reversed timestamp. -/
def TIMESTAMP_BASE : Nat := 253370761200

/-- Modelled from the spec: uuid_utils::new_v7 (uuid_utils.rs is not
under src/) builds a version-7 UUID whose first 48 bits are the
big-endian unix milliseconds of the timestamp, followed by fixed
version/variant bits and random bits.  millis is the 48-bit prefix and
rand stands for the random tail, so byte-wise comparison of two such
UUIDs is lexicographic on (millis, rand). -/
structure UuidV7 where
  millis : Nat
  rand : Nat
  deriving DecidableEq, Repr

/-- Binary (byte-wise) strict order on the modelled v7 UUIDs. -/
def UuidV7.lt (u v : UuidV7) : Prop :=
  u.millis < v.millis ∨ (u.millis = v.millis ∧ u.rand < v.rand)

/-- Modelled from the spec: new_v7 embeds the timestamp truncated to
unix milliseconds into the 48-bit prefix. -/
def new_v7 (ts : UuidTimestamp) (rand : Nat) : UuidV7 :=
  { millis := (ts.seconds * 1000 + ts.nanos / 10 ^ 6) % 2 ^ 48, rand := rand }

/-- Modelled from the spec: uuid_utils::decode_unix_timestamp reads the
embedded milliseconds back at millisecond resolution. -/
def decode_unix_timestamp (u : UuidV7) : UuidTimestamp :=
  { seconds := u.millis / 1000, nanos := (u.millis % 1000) * 10 ^ 6 }

/-- Replicator::generation_from_timestamp: reverse the timestamp by
subtracting seconds from 253370761200 (u64 arithmetic) and nanoseconds
from 999999999 (u32 arithmetic), then build a v7 UUID from the
synthetic timestamp. -/
def generation_from_timestamp (ts : UuidTimestamp) (rand : Nat) : UuidV7 :=
  new_v7
    { seconds := u64sub TIMESTAMP_BASE ts.seconds
      nanos := u32sub 999999999 ts.nanos }
    rand

/-- Replicator::generation_to_timestamp: decode the embedded timestamp
and apply the same reversal again. -/
def generation_to_timestamp (u : UuidV7) : Option UuidTimestamp :=
  let ts := decode_unix_timestamp u
  some
    { seconds := u64sub TIMESTAMP_BASE ts.seconds
      nanos := u32sub 999999999 ts.nanos }

theorem u64sub_eq_sub (a b : Nat) (hb : b ≤ a) (ha : a < U64) : u64sub a b = a - b := by
  unfold u64sub
  rw [Nat.mod_eq_of_lt (lt_of_le_of_lt hb ha)]
  have h4 : a + U64 - b = (a - b) + U64 := by omega
  rw [h4, Nat.add_mod_right]
  exact Nat.mod_eq_of_lt (by omega)

theorem u32sub_eq_sub (a b : Nat) (hb : b ≤ a) (ha : a < U32) : u32sub a b = a - b := by
  unfold u32sub
  rw [Nat.mod_eq_of_lt (lt_of_le_of_lt hb ha)]
  have h4 : a + U32 - b = (a - b) + U32 := by omega
  rw [h4, Nat.add_mod_right]
  exact Nat.mod_eq_of_lt (by omega)

/-- The embedded 48-bit prefix of a generation UUID is the reversal of
the creation time at millisecond resolution. -/
theorem generation_millis (s n r : Nat) (hs : s ≤ TIMESTAMP_BASE) (hn : n < 10 ^ 9) :
    (generation_from_timestamp ⟨s, n⟩ r).millis =
      (TIMESTAMP_BASE * 1000 + 999) - (s * 1000 + n / 10 ^ 6) := by
  unfold generation_from_timestamp new_v7
  have hU64 : TIMESTAMP_BASE < U64 := by unfold TIMESTAMP_BASE U64; norm_num
  have hn999 : n ≤ 999999999 := by omega
  have h32 : (999999999 : Nat) < U32 := by unfold U32; norm_num
  rw [u64sub_eq_sub TIMESTAMP_BASE s hs hU64, u32sub_eq_sub 999999999 n hn999 h32]
  have hdiv : (999999999 - n) / 10 ^ 6 = 999 - n / 10 ^ 6 := by omega
  rw [hdiv]
  have hdle : n / 10 ^ 6 ≤ 999 := by omega
  have hbound : (TIMESTAMP_BASE - s) * 1000 + (999 - n / 10 ^ 6) < 2 ^ 48 := by
    have : (TIMESTAMP_BASE - s) * 1000 ≤ TIMESTAMP_BASE * 1000 :=
      Nat.mul_le_mul_right 1000 (Nat.sub_le _ _)
    unfold TIMESTAMP_BASE at *
    omega
  rw [Nat.mod_eq_of_lt hbound]
  dsimp only
  omega

/-- C6 (amended).  Generation UUIDs are antitone in creation time at
millisecond resolution: whenever two timestamps in the supported range
differ in their unix-millisecond value, the later timestamp yields the
binary-smaller generation UUID regardless of the random bits, so an
ascending key listing yields the newest generation first.  The claim as
stated — for any t1 < t2 — is false: two distinct timestamps inside the
same millisecond yield UUIDs whose order is decided by the random bits
(see the counterexample theorem). -/
theorem generation_order_antitone (s₁ n₁ s₂ n₂ r₁ r₂ : Nat)
    (hs₁ : s₁ ≤ TIMESTAMP_BASE) (hs₂ : s₂ ≤ TIMESTAMP_BASE)
    (hn₁ : n₁ < 10 ^ 9) (hn₂ : n₂ < 10 ^ 9)
    (hms : s₁ * 1000 + n₁ / 10 ^ 6 < s₂ * 1000 + n₂ / 10 ^ 6) :
    UuidV7.lt (generation_from_timestamp ⟨s₂, n₂⟩ r₂)
      (generation_from_timestamp ⟨s₁, n₁⟩ r₁) := by
  left
  rw [generation_millis s₁ n₁ r₁ hs₁ hn₁, generation_millis s₂ n₂ r₂ hs₂ hn₂]
  have h₂ : s₂ * 1000 + n₂ / 10 ^ 6 ≤ TIMESTAMP_BASE * 1000 + 999 := by
    have : s₂ * 1000 ≤ TIMESTAMP_BASE * 1000 := Nat.mul_le_mul_right 1000 hs₂
    omega
  omega

theorem generation_order_antitone_witness :
    UuidV7.lt (generation_from_timestamp ⟨11, 0⟩ 7) (generation_from_timestamp ⟨10, 0⟩ 7) :=
  generation_order_antitone 10 0 11 0 7 7 (by decide) (by decide) (by decide) (by decide)
    (by decide)

/-- C6 counterexample.  The timestamps (0 s, 0 ns) and (0 s, 500000 ns)
satisfy t1 < t2 and lie in the supported range, but they fall in the
same millisecond, so with equal random bits the produced UUIDs are
equal and the one for t2 is not binary-smaller than the one for t1:
the claim quantified over all t1 < t2 is false. -/
theorem generation_order_violation :
    (0 : Nat) < 500000 ∧
      generation_from_timestamp ⟨0, 500000⟩ 0 = generation_from_timestamp ⟨0, 0⟩ 0 ∧
      ¬ UuidV7.lt (generation_from_timestamp ⟨0, 500000⟩ 0)
          (generation_from_timestamp ⟨0, 0⟩ 0) := by
  refine ⟨by decide, by decide, ?_⟩
  intro hlt
  cases hlt with
  | inl h => revert h; decide
  | inr h => exact absurd h.2 (by decide)

/-- C7.  Round-trip of the generation timestamp at second resolution:
for any unix timestamp with seconds at most 253370761200 (and a valid
nanosecond component below 10^9, as uuid::Timestamp guarantees),
generation_to_timestamp of generation_from_timestamp returns a
timestamp with the same unix-seconds component, for any random bits. -/
theorem generation_timestamp_roundtrip (s n r : Nat)
    (hs : s ≤ TIMESTAMP_BASE) (hn : n < 10 ^ 9) :
    ∃ t, generation_to_timestamp (generation_from_timestamp ⟨s, n⟩ r) = some t ∧
      t.seconds = s := by
  have hm := generation_millis s n r hs hn
  have hdle : n / 10 ^ 6 ≤ 999 := by omega
  have hsle : s * 1000 ≤ TIMESTAMP_BASE * 1000 := Nat.mul_le_mul_right 1000 hs
  have hU64 : TIMESTAMP_BASE < U64 := by unfold TIMESTAMP_BASE U64; norm_num
  have hdivsec : (generation_from_timestamp ⟨s, n⟩ r).millis / 1000 = TIMESTAMP_BASE - s := by
    rw [hm]
    omega
  have hseconds : (decode_unix_timestamp (generation_from_timestamp ⟨s, n⟩ r)).seconds =
      TIMESTAMP_BASE - s := hdivsec
  refine ⟨_, rfl, ?_⟩
  dsimp only
  rw [hseconds, u64sub_eq_sub TIMESTAMP_BASE (TIMESTAMP_BASE - s) (Nat.sub_le _ _) hU64]
  omega

theorem generation_timestamp_roundtrip_witness :
    ∃ t, generation_to_timestamp (generation_from_timestamp ⟨5, 123456789⟩ 0) = some t ∧
      t.seconds = 5 :=
  generation_timestamp_roundtrip 5 123456789 0 (by decide) (by decide)

/-- Replicator::UNSET_PAGE_SIZE = usize::MAX, the sentinel meaning the
page size has not been communicated yet. -/
def UNSET_PAGE_SIZE : Nat := 2 ^ 64 - 1

/-- Replicator::set_page_size from replicator.rs: if a different page
size was already set (the field is not the UNSET sentinel and differs
from the argument) the call fails and the field keeps its value;
otherwise the argument is stored.  The pair is (call result, page_size
field after the call). -/
def set_page_size (pageSize n : Nat) : Except Unit Unit × Nat :=
  if pageSize ≠ UNSET_PAGE_SIZE ∧ pageSize ≠ n then (Except.error (), pageSize)
  else (Except.ok (), n)

/-- C8.  Page-size pinning: once the page size is set to a (a real
size, not the UNSET sentinel), setting a different b fails with the
page-size-conflict error and leaves the field at a; setting a again
succeeds and keeps a; while still unset, setting any n succeeds and
stores n. -/
theorem page_size_pinning (a b n : Nat) (ha : a ≠ UNSET_PAGE_SIZE) :
    (b ≠ a → set_page_size a b = (Except.error (), a)) ∧
      set_page_size a a = (Except.ok (), a) ∧
      set_page_size UNSET_PAGE_SIZE n = (Except.ok (), n) := by
  refine ⟨?_, ?_, ?_⟩
  · intro hb
    unfold set_page_size
    rw [if_pos ⟨ha, fun h => hb h.symm⟩]
  · unfold set_page_size
    rw [if_neg]
    intro h
    exact h.2 rfl
  · unfold set_page_size
    rw [if_neg]
    intro h
    exact h.1 rfl

theorem page_size_pinning_witness :
    set_page_size 4096 8192 = (Except.error (), 4096) ∧
      set_page_size 4096 4096 = (Except.ok (), 4096) ∧
      set_page_size UNSET_PAGE_SIZE 512 = (Except.ok (), 512) :=
  ⟨(page_size_pinning 4096 8192 512 (by decide)).1 (by decide),
    (page_size_pinning 4096 8192 512 (by decide)).2.1,
    (page_size_pinning 4096 8192 512 (by decide)).2.2⟩

/-- Size in bytes of a WAL frame header (wal.rs WalFrameHeader::SIZE,
the standard 24-byte SQLite WAL frame header). -/
def WAL_FRAME_HEADER_SIZE : Nat := 24

/-- Big-endian integer value of a byte list. -/
def be32 (l : List Nat) : Nat := l.foldl (fun acc b => acc * 256 + b % 256) 0

/-- Modelled from the spec (§4.6 and glossary; wal.rs is not under
src/): a WAL frame header is 24 raw bytes carrying the big-endian page
number in bytes 0..4 and the size-after-commit value in bytes 4..8
(nonzero marks a commit boundary), followed by checksum words. -/
structure WalFrameHeader where
  bytes : List Nat
  deriving DecidableEq, Repr

/-- Page number carried by the header (1-based). -/
def WalFrameHeader.pgno (h : WalFrameHeader) : Nat := be32 (h.bytes.take 4)

/-- Size-after-commit field of the header. -/
def WalFrameHeader.size_after (h : WalFrameHeader) : Nat := be32 ((h.bytes.drop 4).take 4)

/-- A frame is a commit boundary when its size-after field is nonzero. -/
def WalFrameHeader.is_committed (h : WalFrameHeader) : Bool := 0 < h.size_after

/-- BatchReader from read.rs: a position in the byte stream of one
downloaded batch together with the number of the next frame.  The
stream field holds the bytes the selected decompressor yields (the
gzip decoder itself is an external library, so the embedding works on
the already-decoded stream). -/
structure BatchReader where
  stream : List Nat
  next_frame_no : Nat
  deriving DecidableEq, Repr

/-- BatchReader::new. -/
def BatchReader.new (initFrameNo : Nat) (content : List Nat) : BatchReader :=
  { stream := content, next_frame_no := initFrameNo }

/-- BatchReader::next_frame_header from read.rs: read_exact of the
24-byte header; an unexpected end of stream — any remaining length
below 24, a partial header included — yields Ok(None), a clean end of
batch; a complete header yields Ok(Some header). -/
def BatchReader.next_frame_header (r : BatchReader) :
    Except Unit (Option WalFrameHeader) × BatchReader :=
  if WAL_FRAME_HEADER_SIZE ≤ r.stream.length then
    (Except.ok (some ⟨r.stream.take WAL_FRAME_HEADER_SIZE⟩),
      { r with stream := r.stream.drop WAL_FRAME_HEADER_SIZE })
  else (Except.ok none, r)

/-- BatchReader::next_page from read.rs: read_exact of one page;
an unexpected end of stream here is an error, which restore_from
propagates. -/
def BatchReader.next_page (r : BatchReader) (pageSize : Nat) :
    Except Unit (List Nat × BatchReader) :=
  if pageSize ≤ r.stream.length then
    Except.ok (r.stream.take pageSize,
      { stream := r.stream.drop pageSize, next_frame_no := r.next_frame_no + 1 })
  else Except.error ()

/-- C10.  Truncated-header tolerance: whenever fewer than the 24 header
bytes remain in the stream — a partial header of 1 to 23 bytes or an
empty stream — next_frame_header returns Ok(None), treating the
truncation as a clean end of batch rather than an error. -/
theorem truncated_header_tolerated (r : BatchReader) (h : r.stream.length < 24) :
    r.next_frame_header = (Except.ok none, r) := by
  unfold BatchReader.next_frame_header WAL_FRAME_HEADER_SIZE
  rw [if_neg]
  omega

theorem truncated_header_tolerated_witness :
    BatchReader.next_frame_header { stream := [1, 2, 3, 4, 5], next_frame_no := 1 } =
      (Except.ok none, { stream := [1, 2, 3, 4, 5], next_frame_no := 1 }) :=
  truncated_header_tolerated { stream := [1, 2, 3, 4, 5], next_frame_no := 1 } (by decide)

theorem toNat_digitChar (d : Nat) (h : d < 10) : (Char.ofNat (48 + d)).toNat = 48 + d := by
  interval_cases d <;> decide

theorem natChars_digit {n : Nat} {c : Char} (hc : c ∈ natChars n) :
    48 ≤ c.toNat ∧ c.toNat ≤ 57 := by
  unfold natChars at hc
  by_cases h0 : n = 0
  · rw [if_pos h0] at hc
    simp only [List.mem_singleton] at hc
    subst hc; decide
  · rw [if_neg h0] at hc
    simp only [List.mem_map, List.mem_reverse] at hc
    obtain ⟨d, hd, hcd⟩ := hc
    have hdlt : d < 10 := Nat.digits_lt_base (by norm_num) hd
    subst hcd
    rw [toNat_digitChar d hdlt]
    omega

theorem notMem_natChars {n : Nat} {c : Char}
    (h : c.toNat < 48 ∨ 57 < c.toNat) : c ∉ natChars n := by
  intro hc
  have := natChars_digit hc
  omega

theorem natChars_ne_nil (n : Nat) : natChars n ≠ [] := by
  unfold natChars
  by_cases h0 : n = 0
  · rw [if_pos h0]; simp
  · rw [if_neg h0]
    simp only [ne_eq, List.map_eq_nil_iff, List.reverse_eq_nil_iff]
    exact Nat.digits_ne_nil_iff_ne_zero.mpr h0

theorem parseDigitsAux_append (l₁ l₂ : List Char) (acc : Nat) :
    parseDigitsAux (l₁ ++ l₂) acc =
      match parseDigitsAux l₁ acc with
      | some acc₂ => parseDigitsAux l₂ acc₂
      | Option.none => none := by
  induction l₁ generalizing acc with
  | nil => rfl
  | cons c cs ih =>
      simp only [List.cons_append, parseDigitsAux]
      by_cases hd : 48 ≤ c.toNat ∧ c.toNat ≤ 57
      · rw [if_pos hd, if_pos hd]
        exact ih _
      · rw [if_neg hd, if_neg hd]

theorem parseDigitsAux_digits (ds : List Nat) (hds : ∀ d ∈ ds, d < 10) (acc : Nat) :
    parseDigitsAux (ds.reverse.map fun d => Char.ofNat (48 + d)) acc =
      some (acc * 10 ^ ds.length + Nat.ofDigits 10 ds) := by
  induction ds generalizing acc with
  | nil => simp [parseDigitsAux, Nat.ofDigits]
  | cons d tl ih =>
      have hd : d < 10 := hds d (List.mem_cons_self d tl)
      have htl : ∀ x ∈ tl, x < 10 := fun x hx => hds x (List.mem_cons_of_mem d hx)
      simp only [List.reverse_cons, List.map_append, List.map_cons, List.map_nil]
      rw [parseDigitsAux_append, ih htl acc]
      simp only [parseDigitsAux]
      rw [toNat_digitChar d hd, if_pos (by omega)]
      rw [Nat.ofDigits_cons]
      congr 1
      have h48 : 48 + d - 48 = d := by omega
      rw [h48, List.length_cons, pow_succ]
      ring

theorem parseDigits_natChars (n : Nat) : parseDigits (natChars n) = some n := by
  unfold parseDigits
  rw [if_neg (natChars_ne_nil n)]
  unfold natChars
  by_cases h0 : n = 0
  · subst h0; decide
  · rw [if_neg h0]
    rw [parseDigitsAux_digits (Nat.digits 10 n) (fun d hd => Nat.digits_lt_base (by norm_num) hd) 0]
    rw [Nat.ofDigits_digits]
    simp

theorem parseUNat_natChars (n : Nat) : parseUNat (natChars n) = some n := by
  have hne := natChars_ne_nil n
  obtain ⟨c, cs, hcc⟩ : ∃ c cs, natChars n = c :: cs := by
    cases h : natChars n with
    | nil => exact absurd h hne
    | cons c cs => exact ⟨c, cs, rfl⟩
  have hcne : c ≠ '+' := by
    intro hc
    subst hc
    have : ('+' : Char) ∈ natChars n := by rw [hcc]; exact List.mem_cons_self _ _
    exact notMem_natChars (by decide) this
  have hpd := parseDigits_natChars n
  rw [hcc] at hpd ⊢
  show (if c = '+' then parseDigits cs else parseDigits (c :: cs)) = some n
  rw [if_neg hcne]
  exact hpd

theorem parseU32_natChars (n : Nat) (h : n < U32) : parseU32 (natChars n) = some n := by
  unfold parseU32
  rw [parseUNat_natChars n]
  simp [h]

theorem parseU64_natChars (n : Nat) (h : n < U64) : parseU64 (natChars n) = some n := by
  unfold parseU64
  rw [parseUNat_natChars n]
  simp [h]

theorem rfindIdx_eq_none {c : Char} {l : List Char} (h : c ∉ l) : rfindIdx c l = none := by
  induction l with
  | nil => rfl
  | cons x xs ih =>
      have hx : x ≠ c := fun he => h (he ▸ List.mem_cons_self x xs)
      have hxs : c ∉ xs := fun hm => h (List.mem_cons_of_mem x hm)
      simp only [rfindIdx, ih hxs]
      rw [if_neg hx]

theorem rfindIdx_append (c : Char) (l₁ l₂ : List Char) :
    rfindIdx c (l₁ ++ l₂) =
      match rfindIdx c l₂ with
      | some i => some (l₁.length + i)
      | Option.none => rfindIdx c l₁ := by
  induction l₁ with
  | nil => cases h : rfindIdx c l₂ <;> simp [h, rfindIdx]
  | cons x xs ih =>
      show (match rfindIdx c (xs ++ l₂) with
        | some i => some (i + 1)
        | Option.none => if x = c then some 0 else none) = _
      rw [ih]
      cases h : rfindIdx c l₂ with
      | none => rfl
      | some i =>
          simp only [List.length_cons]
          congr 1
          omega

theorem rfindIdx_sandwich (c : Char) (l₁ l₂ : List Char) (h : c ∉ l₂) :
    rfindIdx c (l₁ ++ c :: l₂) = some l₁.length := by
  rw [rfindIdx_append]
  have h2 : rfindIdx c (c :: l₂) = some 0 := by
    show (match rfindIdx c l₂ with
      | some i => some (i + 1)
      | Option.none => if c = c then some 0 else none) = some 0
    rw [rfindIdx_eq_none h, if_pos rfl]
  rw [h2]
  simp

theorem drop_after (l₁ l₂ : List Char) (c : Char) :
    (l₁ ++ c :: l₂).drop (l₁.length + 1) = l₂ := by
  rw [show l₁ ++ c :: l₂ = (l₁ ++ [c]) ++ l₂ by simp]
  rw [show l₁.length + 1 = (l₁ ++ [c]).length by simp]
  exact List.drop_left _ _

theorem parse_display (k : CompressionKind) : CompressionKind.parse k.display = some k := by
  cases k <;> decide

theorem dash_notMem_display (k : CompressionKind) : '-' ∉ k.display := by
  cases k <;> decide

theorem dot_notMem_display (k : CompressionKind) : '.' ∉ k.display := by
  cases k <;> decide

theorem slash_notMem_display (k : CompressionKind) : '/' ∉ k.display := by
  cases k <;> decide

theorem parse_frame_range_after_slash (pre S : List Char) (hS : '/' ∉ S) :
    parse_frame_range (pre ++ '/' :: S) = parseFrameSuffix S := by
  unfold parse_frame_range
  rw [rfindIdx_sandwich '/' pre S hS]
  show parseFrameSuffix ((pre ++ '/' :: S).drop (pre.length + 1)) = _
  rw [drop_after]

theorem parseFrameSuffix_timestamped (a b ts : Nat) (k : CompressionKind)
    (ha : a < U32) (hb : b < U32) (hts : ts < U64) :
    parseFrameSuffix
        (natChars a ++ '-' :: (natChars b ++ '-' :: (natChars ts ++ '.' :: k.display))) =
      some (a, b, ts, k) := by
  have hdashT : ('-' : Char) ∉ natChars ts ++ '.' :: k.display := by
    intro h
    rcases List.mem_append.mp h with h | h
    · exact notMem_natChars (by decide) h
    · rcases List.mem_cons.mp h with h | h
      · exact absurd h (by decide)
      · exact dash_notMem_display k h
  have htd : rfindIdx '-'
      (natChars a ++ '-' :: (natChars b ++ '-' :: (natChars ts ++ '.' :: k.display))) =
        some ((natChars a ++ '-' :: natChars b).length) := by
    rw [show natChars a ++ '-' :: (natChars b ++ '-' :: (natChars ts ++ '.' :: k.display)) =
        (natChars a ++ '-' :: natChars b) ++ '-' :: (natChars ts ++ '.' :: k.display) by simp]
    exact rfindIdx_sandwich '-' _ _ hdashT
  have htk1 : (natChars a ++ '-' :: (natChars b ++ '-' :: (natChars ts ++ '.' :: k.display))).take
      ((natChars a ++ '-' :: natChars b).length) = natChars a ++ '-' :: natChars b := by
    rw [show natChars a ++ '-' :: (natChars b ++ '-' :: (natChars ts ++ '.' :: k.display)) =
        (natChars a ++ '-' :: natChars b) ++ '-' :: (natChars ts ++ '.' :: k.display) by simp]
    exact List.take_left _ _
  have hlf : rfindIdx '-' (natChars a ++ '-' :: natChars b) = some (natChars a).length :=
    rfindIdx_sandwich '-' _ _ (notMem_natChars (by decide))
  have hdotX : ('.' : Char) ∉ k.display := dot_notMem_display k
  have hcd : rfindIdx '.'
      (natChars a ++ '-' :: (natChars b ++ '-' :: (natChars ts ++ '.' :: k.display))) =
        some ((natChars a ++ '-' :: (natChars b ++ '-' :: natChars ts)).length) := by
    rw [show natChars a ++ '-' :: (natChars b ++ '-' :: (natChars ts ++ '.' :: k.display)) =
        (natChars a ++ '-' :: (natChars b ++ '-' :: natChars ts)) ++ '.' :: k.display by simp]
    exact rfindIdx_sandwich '.' _ _ hdotX
  have hdA : (natChars a ++ '-' :: (natChars b ++ '-' :: (natChars ts ++ '.' :: k.display))).drop
      ((natChars a).length + 1) = natChars b ++ '-' :: (natChars ts ++ '.' :: k.display) :=
    drop_after _ _ _
  have hdB : (natChars a ++ '-' :: (natChars b ++ '-' :: (natChars ts ++ '.' :: k.display))).drop
      ((natChars a ++ '-' :: natChars b).length + 1) = natChars ts ++ '.' :: k.display := by
    rw [show natChars a ++ '-' :: (natChars b ++ '-' :: (natChars ts ++ '.' :: k.display)) =
        (natChars a ++ '-' :: natChars b) ++ '-' :: (natChars ts ++ '.' :: k.display) by simp]
    exact drop_after _ _ _
  have hdC : (natChars a ++ '-' :: (natChars b ++ '-' :: (natChars ts ++ '.' :: k.display))).drop
      ((natChars a ++ '-' :: (natChars b ++ '-' :: natChars ts)).length + 1) = k.display := by
    rw [show natChars a ++ '-' :: (natChars b ++ '-' :: (natChars ts ++ '.' :: k.display)) =
        (natChars a ++ '-' :: (natChars b ++ '-' :: natChars ts)) ++ '.' :: k.display by simp]
    exact drop_after _ _ _
  have esub1 : (natChars a ++ '-' :: natChars b).length - ((natChars a).length + 1) =
      (natChars b).length := by
    simp only [List.length_append, List.length_cons]
    omega
  have esub2 : (natChars a ++ '-' :: (natChars b ++ '-' :: natChars ts)).length -
      ((natChars a ++ '-' :: natChars b).length + 1) = (natChars ts).length := by
    simp only [List.length_append, List.length_cons]
    omega
  unfold parseFrameSuffix
  simp only [htd, htk1, hlf, hcd, hdA, hdB, hdC, esub1, esub2, List.take_left,
    parseU32_natChars a ha, parseU32_natChars b hb, parseU64_natChars ts hts, parse_display]

theorem parseFrameSuffix_legacy (a b : Nat) (k : CompressionKind) :
    parseFrameSuffix (natChars a ++ '-' :: (natChars b ++ '.' :: k.display)) = none := by
  have hdashT : ('-' : Char) ∉ natChars b ++ '.' :: k.display := by
    intro h
    rcases List.mem_append.mp h with h | h
    · exact notMem_natChars (by decide) h
    · rcases List.mem_cons.mp h with h | h
      · exact absurd h (by decide)
      · exact dash_notMem_display k h
  have htd : rfindIdx '-' (natChars a ++ '-' :: (natChars b ++ '.' :: k.display)) =
      some (natChars a).length :=
    rfindIdx_sandwich '-' _ _ hdashT
  have htk : (natChars a ++ '-' :: (natChars b ++ '.' :: k.display)).take
      ((natChars a).length) = natChars a := List.take_left _ _
  have hlf : rfindIdx '-' (natChars a) = none := rfindIdx_eq_none (notMem_natChars (by decide))
  unfold parseFrameSuffix
  simp only [htd, htk, hlf]

/-- C9.  Batch-key parsing accepts exactly the mandated timestamped
form: for all frame numbers a, b (u32), timestamp ts (u64) and
compression suffix raw or gz, a key whose part after the last slash is
a-b-ts.suffix parses to Some (a, b, ts, suffix); and the un-timestamped
historical form a-b.suffix is rejected with None. -/
theorem parse_frame_range_key_forms (pre : List Char) (a b ts : Nat) (k : CompressionKind)
    (ha : a < U32) (hb : b < U32) (hts : ts < U64) :
    parse_frame_range
        (pre ++ '/' :: (natChars a ++ '-' :: (natChars b ++ '-' ::
          (natChars ts ++ '.' :: k.display)))) = some (a, b, ts, k) ∧
      parse_frame_range
        (pre ++ '/' :: (natChars a ++ '-' :: (natChars b ++ '.' :: k.display))) = none := by
  have hs1 : ('/' : Char) ∉
      natChars a ++ '-' :: (natChars b ++ '-' :: (natChars ts ++ '.' :: k.display)) := by
    intro h
    rcases List.mem_append.mp h with h | h
    · exact notMem_natChars (by decide) h
    rcases List.mem_cons.mp h with h | h
    · exact absurd h (by decide)
    rcases List.mem_append.mp h with h | h
    · exact notMem_natChars (by decide) h
    rcases List.mem_cons.mp h with h | h
    · exact absurd h (by decide)
    rcases List.mem_append.mp h with h | h
    · exact notMem_natChars (by decide) h
    rcases List.mem_cons.mp h with h | h
    · exact absurd h (by decide)
    · exact slash_notMem_display k h
  have hs2 : ('/' : Char) ∉ natChars a ++ '-' :: (natChars b ++ '.' :: k.display) := by
    intro h
    rcases List.mem_append.mp h with h | h
    · exact notMem_natChars (by decide) h
    rcases List.mem_cons.mp h with h | h
    · exact absurd h (by decide)
    rcases List.mem_append.mp h with h | h
    · exact notMem_natChars (by decide) h
    rcases List.mem_cons.mp h with h | h
    · exact absurd h (by decide)
    · exact slash_notMem_display k h
  constructor
  · rw [parse_frame_range_after_slash pre _ hs1]
    exact parseFrameSuffix_timestamped a b ts k ha hb hts
  · rw [parse_frame_range_after_slash pre _ hs2]
    exact parseFrameSuffix_legacy a b k

theorem parse_frame_range_key_forms_witness :
    parse_frame_range
        (['d', 'b', '-', 'g'] ++ '/' :: (natChars 1 ++ '-' :: (natChars 2 ++ '-' ::
          (natChars 3 ++ '.' :: CompressionKind.gzip.display)))) =
        some (1, 2, 3, CompressionKind.gzip) ∧
      parse_frame_range
        (['d', 'b', '-', 'g'] ++ '/' :: (natChars 1 ++ '-' ::
          (natChars 2 ++ '.' :: CompressionKind.gzip.display))) = none :=
  parse_frame_range_key_forms ['d', 'b', '-', 'g'] 1 2 3 CompressionKind.gzip
    (by decide) (by decide) (by decide)

/-- Error kinds a restore can surface (spec §7 taxonomy).  The code under
src/ never constructs the tombstoned kind; it is declared so that the
claim about it is statable. -/
inductive RestoreErr where
  | pageSizeConflict
  | checksumMismatch
  | pageRead
  | tombstoned
  deriving DecidableEq, Repr

/-- RestoreAction from replicator.rs.  The reuseGeneration payload (the
target generation UUID) is omitted: the embedded restore_from has a
single target generation, held in the environment. -/
inductive RestoreAction where
  | none
  | snapshotMainDbFile
  | reuseGeneration
  deriving DecidableEq, Repr

/-- One listed S3 object of the generation: its key, and the byte stream
its body yields after the decompressor selected by the key's compression
kind (the gzip decoder is an external library, so the embedding works on
the already-decoded stream). -/
structure S3Obj where
  key : List Char
  content : List Nat
  deriving DecidableEq, Repr

/-- What restore_from reads from the local main database file:
read_page_size (None when the read fails on a short file) and
read_change_counter (None when that read fails; restore_from substitutes
zeros). -/
structure LocalDb where
  pageSize : Option Nat
  changeCounter : Option (List Nat)
  deriving DecidableEq, Repr

/-- Environment of one restore_from call: everything the call reads from
the object store and the local file system.  The utc_time argument is
modelled at None (no claim exercises the timestamp bound), and
file-system effects without influence on the returned values — renames,
temporary files, upload_remaining_files — are not modelled. -/
structure RestoreEnv where
  tombstone : Option Int := Option.none
  generation : UuidV7 := { millis := 0, rand := 0 }
  localDb : Option LocalDb := Option.none
  remoteChangeCounter : Option (List Nat) := Option.none
  localWal : Option (Nat × Nat) := Option.none
  snapshotPageSize : Option Nat := Option.none
  meta : Option (Nat × Nat) := Option.none
  listing : List (List S3Obj) := []
  verifyCrc : Bool := true
  deriving Repr

/-- Replicator state restore_from mutates: the two frame counters and
the page_size field. -/
structure RestoreState where
  nextFrameNo : Nat
  lastSentFrameNo : Nat
  pageSize : Nat
  deriving DecidableEq, Repr

/-- Replicator::reset_frames acting on the restore-time state. -/
def RestoreState.reset_frames (st : RestoreState) (frameNo : Nat) : RestoreState :=
  { st with
      nextFrameNo := (frameNo + 1) % U32
      lastSentFrameNo := min st.lastSentFrameNo frameNo }

/-- Lexicographic comparison of byte arrays, as [u8; 4]::cmp. -/
def cmpBytes : List Nat → List Nat → Ordering
  | [], [] => Ordering.eq
  | [], _ :: _ => Ordering.lt
  | _ :: _, [] => Ordering.gt
  | x :: xs, y :: ys =>
      if x < y then Ordering.lt else if y < x then Ordering.gt else cmpBytes xs ys

/-- Replicator::get_last_consistent_frame: walk the generation's listing
in order and keep the last_frame number of the last key that parses. -/
def get_last_consistent_frame (pages : List (List S3Obj)) : Nat :=
  pages.flatten.foldl
    (fun acc obj =>
      match parse_frame_range obj.key with
      | some (_, lastFrameNo, _, _) => lastFrameNo
      | Option.none => acc)
    0

/-- Modelled from the spec (§4.5; transaction_cache.rs is not under
src/): TransactionPageCache::insert keeps one entry per page number,
the latest insertion winning. -/
def cacheInsert (cache : List (Nat × List Nat)) (pgno : Nat) (page : List Nat) :
    List (Nat × List Nat) :=
  if cache.any fun e => e.1 = pgno then
    cache.map fun e => if e.1 = pgno then (pgno, page) else e
  else cache ++ [(pgno, page)]

/-- Result of streaming the frames of one batch object. -/
structure FrameLoopResult where
  checksum : Nat
  pending : List (Nat × List Nat)
  lastReceived : Nat
  applied : Bool
  writes : List (List (Nat × List Nat))
  err : Option RestoreErr
  deriving DecidableEq, Repr

/-- The frame loop of restore_from over one batch body: read a frame
header (a truncated header ends the batch cleanly), read the page (a
truncated page is an error), verify the checksum when enabled (the
verifier vf stands for the WAL checksum algorithm of wal.rs, which is
not under src/ and is a black box per spec §4.6), insert the page into
the transaction cache, and flush the cache to the database file at each
commit boundary. -/
def replayFramesAux (vf : Nat → List Nat → List Nat → Option Nat) (verifyCrc : Bool)
    (pageSize : Nat) : Nat → List Nat → Nat → List (Nat × List Nat) → Nat → Bool →
      List (List (Nat × List Nat)) → FrameLoopResult
  | 0, _, checksum, pending, lastReceived, applied, writes =>
      { checksum := checksum, pending := pending, lastReceived := lastReceived,
        applied := applied, writes := writes, err := Option.none }
  | fuel + 1, stream, checksum, pending, lastReceived, applied, writes =>
      if 24 ≤ stream.length then
        let hdr := stream.take 24
        let rest := stream.drop 24
        if pageSize ≤ rest.length then
          let page := rest.take pageSize
          let rest2 := rest.drop pageSize
          match (if verifyCrc then vf checksum hdr page else some checksum) with
          | Option.none =>
              { checksum := checksum, pending := pending, lastReceived := lastReceived,
                applied := applied, writes := writes,
                err := some RestoreErr.checksumMismatch }
          | some ck2 =>
              let hdrS : WalFrameHeader := ⟨hdr⟩
              let pending2 := cacheInsert pending hdrS.pgno page
              if hdrS.is_committed then
                replayFramesAux vf verifyCrc pageSize fuel rest2 ck2 [] (lastReceived + 1)
                  true (writes ++ [pending2])
              else
                replayFramesAux vf verifyCrc pageSize fuel rest2 ck2 pending2
                  (lastReceived + 1) applied writes
        else
          { checksum := checksum, pending := pending, lastReceived := lastReceived,
            applied := applied, writes := writes, err := some RestoreErr.pageRead }
      else
        { checksum := checksum, pending := pending, lastReceived := lastReceived,
          applied := applied, writes := writes, err := Option.none }

/-- The frame loop over one batch body, entered with enough fuel for the
finite stream: each iteration consumes at least the 24 header bytes, so
stream.length + 1 steps always reach the end of the stream. -/
def replayFrames (vf : Nat → List Nat → List Nat → Option Nat) (verifyCrc : Bool)
    (pageSize : Nat) (stream : List Nat) (checksum : Nat)
    (pending : List (Nat × List Nat)) (lastReceived : Nat) (applied : Bool)
    (writes : List (List (Nat × List Nat))) : FrameLoopResult :=
  replayFramesAux vf verifyCrc pageSize (stream.length + 1) stream checksum pending
    lastReceived applied writes

/-- State of the for-loop over the objects of one listing page. -/
structure PageState where
  checksum : Nat
  pending : List (Nat × List Nat)
  lastReceived : Nat
  applied : Bool
  writes : List (List (Nat × List Nat))
  processed : List (List Char)
  halted : Bool
  err : Option RestoreErr
  deriving DecidableEq, Repr

/-- One iteration of the object loop in restore_from: skip keys that do
not parse; stop the page at a frame-number gap or at a batch reaching
past the last consistent frame; otherwise stream the batch's frames.
processed records the keys whose frames were streamed. -/
def processObj (vf : Nat → List Nat → List Nat → Option Nat) (verifyCrc : Bool)
    (pageSize lastConsistent : Nat) (ps : PageState) (obj : S3Obj) : PageState :=
  if ps.halted ∨ ps.err.isSome then ps
  else
    match parse_frame_range obj.key with
    | Option.none => ps
    | some (firstFrameNo, lastFrameNo, _, _) =>
        if firstFrameNo ≠ ps.lastReceived + 1 then { ps with halted := true }
        else if lastConsistent < lastFrameNo then { ps with halted := true }
        else
          let r := replayFrames vf verifyCrc pageSize obj.content ps.checksum ps.pending
            ps.lastReceived ps.applied ps.writes
          { checksum := r.checksum, pending := r.pending, lastReceived := r.lastReceived,
            applied := r.applied, writes := r.writes,
            processed := ps.processed ++ [obj.key], halted := ps.halted, err := r.err }

/-- The object loop of restore_from over one listing page. -/
def processObjs (vf : Nat → List Nat → List Nat → Option Nat) (verifyCrc : Bool)
    (pageSize lastConsistent : Nat) (objs : List S3Obj) (ps : PageState) : PageState :=
  objs.foldl (processObj vf verifyCrc pageSize lastConsistent) ps

/-- Result of the whole paginated WAL replay. -/
structure ReplayResult where
  checksum : Nat
  applied : Bool
  writes : List (List (Nat × List Nat))
  processed : List (List Char)
  err : Option RestoreErr
  deriving DecidableEq, Repr

/-- The paginated restore_wal loop of restore_from: each listing page
starts a fresh transaction cache and — as in the source — a fresh
last_received_frame_no of 0; an error aborts the whole replay, an empty
page ends it, and the loop otherwise continues with the next page. -/
def replayPages (vf : Nat → List Nat → List Nat → Option Nat) (verifyCrc : Bool)
    (pageSize lastConsistent : Nat) :
    List (List S3Obj) → Nat → Bool → List (List (Nat × List Nat)) → List (List Char) →
      ReplayResult
  | [], ck, ap, ws, pr =>
      { checksum := ck, applied := ap, writes := ws, processed := pr, err := Option.none }
  | objs :: rest, ck, ap, ws, pr =>
      if objs = [] then
        { checksum := ck, applied := ap, writes := ws, processed := pr, err := Option.none }
      else
        let r := processObjs vf verifyCrc pageSize lastConsistent objs
          { checksum := ck, pending := [], lastReceived := 0, applied := ap,
            writes := ws, processed := pr, halted := false, err := Option.none }
        match r.err with
        | some e =>
            { checksum := r.checksum, applied := r.applied, writes := r.writes,
              processed := r.processed, err := some e }
        | Option.none =>
            replayPages vf verifyCrc pageSize lastConsistent rest r.checksum r.applied
              r.writes r.processed

/-- The local change-counter read of restore_from: when the main db file
opens, its page size (bytes 16..18) is read and pinned via
set_page_size (whose failure aborts the restore) and the change counter
(bytes 24..28) is read with zeros substituted on failure; an unopenable
file yields zeros. -/
def localCounterPhase (env : RestoreEnv) (st : RestoreState) :
    Except RestoreErr (List Nat × RestoreState) :=
  match env.localDb with
  | Option.none => Except.ok ([0, 0, 0, 0], st)
  | some db =>
      match db.pageSize with
      | some psz =>
          match set_page_size st.pageSize psz with
          | (Except.error _, _) => Except.error RestoreErr.pageSizeConflict
          | (Except.ok _, p2) =>
              Except.ok (db.changeCounter.getD [0, 0, 0, 0], { st with pageSize := p2 })
      | Option.none => Except.ok (db.changeCounter.getD [0, 0, 0, 0], st)

/-- Replicator::get_local_wal_page_count: no WAL file means 0 frames; a
page-size conflict while registering the WAL's page size is swallowed
and also reported as 0 frames. -/
def get_local_wal_page_count (env : RestoreEnv) (st : RestoreState) : Nat × RestoreState :=
  match env.localWal with
  | Option.none => (0, st)
  | some (psz, fc) =>
      match set_page_size st.pageSize psz with
      | (Except.error _, _) => (0, st)
      | (Except.ok _, p2) => (fc, { st with pageSize := p2 })

/-- The full-restore tail of restore_from: read the snapshot (pinning the
page size read back from the restored file), then — when the .meta
object exists — pin the page size it records and replay the WAL batches;
the returned action is SnapshotMainDbFile exactly when some WAL frame
was applied, and ReuseGeneration otherwise. -/
def fullRestore (vf : Nat → List Nat → List Nat → Option Nat) (env : RestoreEnv)
    (st : RestoreState) (lastConsistent : Nat) :
    Except RestoreErr RestoreAction × RestoreState × List (List (Nat × List Nat)) :=
  let stSnap : Except RestoreErr RestoreState :=
    match env.snapshotPageSize with
    | some psz =>
        match set_page_size st.pageSize psz with
        | (Except.error _, _) => Except.error RestoreErr.pageSizeConflict
        | (Except.ok _, p2) => Except.ok { st with pageSize := p2 }
    | Option.none => Except.ok st
  match stSnap with
  | Except.error e => (Except.error e, st, [])
  | Except.ok st₃ =>
      match env.meta with
      | some (psz, cksum) =>
          match set_page_size st₃.pageSize psz with
          | (Except.error _, _) => (Except.error RestoreErr.pageSizeConflict, st₃, [])
          | (Except.ok _, p2) =>
              let st₄ := { st₃ with pageSize := p2 }
              let r := replayPages vf env.verifyCrc st₄.pageSize lastConsistent env.listing
                cksum false [] []
              match r.err with
              | some e => (Except.error e, st₄, r.writes)
              | Option.none =>
                  if r.applied then (Except.ok RestoreAction.snapshotMainDbFile, st₄, r.writes)
                  else (Except.ok RestoreAction.reuseGeneration, st₄, r.writes)
      | Option.none => (Except.ok RestoreAction.reuseGeneration, st₃, [])

/-- The body of restore_from after the tombstone gate: read the local
change counter and page size, the remote change counter, the last
consistent frame and the local WAL frame count, then take the fast-path
decision — equal counters with WAL frames equal to the last consistent
frame reuse the generation after reset_frames(wal_pages + 1); equal
counters with more local WAL frames, or a larger local counter, request
a snapshot; anything else falls through to the full restore. -/
def restoreBody (vf : Nat → List Nat → List Nat → Option Nat) (env : RestoreEnv)
    (st : RestoreState) :
    Except RestoreErr RestoreAction × RestoreState × List (List (Nat × List Nat)) :=
  match localCounterPhase env st with
  | Except.error e => (Except.error e, st, [])
  | Except.ok (localCounter, st₁) =>
      let remoteCounter := env.remoteChangeCounter.getD [0, 0, 0, 0]
      let lastConsistent := get_last_consistent_frame env.listing
      let (walPages, st₂) := get_local_wal_page_count env st₁
      match cmpBytes localCounter remoteCounter with
      | Ordering.eq =>
          match compare walPages lastConsistent with
          | Ordering.eq =>
              (Except.ok RestoreAction.reuseGeneration, st₂.reset_frames (walPages + 1), [])
          | Ordering.gt => (Except.ok RestoreAction.snapshotMainDbFile, st₂, [])
          | Ordering.lt => fullRestore vf env st₂ lastConsistent
      | Ordering.gt => (Except.ok RestoreAction.snapshotMainDbFile, st₂, [])
      | Ordering.lt => fullRestore vf env st₂ lastConsistent

/-- Replicator::restore_from from replicator.rs, composed from the
phases above.  The tombstone gate comes first: a tombstone at or after
the generation's embedded timestamp makes the call return
Ok(RestoreAction::None) — not an error — without touching anything. -/
def restore_from (vf : Nat → List Nat → List Nat → Option Nat) (env : RestoreEnv)
    (st : RestoreState) :
    Except RestoreErr RestoreAction × RestoreState × List (List (Nat × List Nat)) :=
  match env.tombstone, generation_to_timestamp env.generation with
  | some t, some ts =>
      if ts.seconds ≤ i64ToU64 t then (Except.ok RestoreAction.none, st, [])
      else restoreBody vf env st
  | some _, Option.none => restoreBody vf env st
  | Option.none, _ => restoreBody vf env st

/-- C4 (amended).  When a tombstone exists whose stored timestamp (cast
to u64) is at least the generation's embedded timestamp, restore_from
returns Ok(RestoreAction::None) — reporting no error, in particular not
a Tombstoned failure — leaves the counters and page size untouched, and
applies no WAL frame to the database file.  The claim as stated — that
the call fails with the Tombstoned error — is falseents; see the
counterexample theorem. -/
theorem tombstone_blocks_restore (vf : Nat → List Nat → List Nat → Option Nat)
    (env : RestoreEnv) (st : RestoreState) (t : Int) (ts : UuidTimestamp)
    (htomb : env.tombstone = some t)
    (hts : generation_to_timestamp env.generation = some ts)
    (hle : ts.seconds ≤ i64ToU64 t) :
    restore_from vf env st = (Except.ok RestoreAction.none, st, []) := by
  unfold restore_from
  rw [htomb, hts]
  simp only [if_pos hle]

theorem tombstone_blocks_restore_witness :
    restore_from (fun c _ _ => some c)
        { tombstone := some 100,
          generation := { millis := (TIMESTAMP_BASE - 50) * 1000, rand := 0 } }
        { nextFrameNo := 1, lastSentFrameNo := 0, pageSize := UNSET_PAGE_SIZE } =
      (Except.ok RestoreAction.none,
        { nextFrameNo := 1, lastSentFrameNo := 0, pageSize := UNSET_PAGE_SIZE }, []) :=
  tombstone_blocks_restore (fun c _ _ => some c)
    { tombstone := some 100,
      generation := { millis := (TIMESTAMP_BASE - 50) * 1000, rand := 0 } }
    { nextFrameNo := 1, lastSentFrameNo := 0, pageSize := UNSET_PAGE_SIZE }
    100 { seconds := 50, nanos := 999999999 } rfl (by decide) (by decide)

/-- C4 counterexample.  A concrete restore_from call blocked by the
tombstone (tombstone timestamp 100, generation embedded timestamp 50)
returns Ok(RestoreAction::None): the call succeeds with no restore
action instead of failing with a Tombstoned error, so the claim as
stated is false on the code (the positive half — no WAL frame is
applied — does hold, the write list is empty). -/
theorem tombstone_not_an_error :
    (restore_from (fun c _ _ => some c)
          { tombstone := some 100,
            generation := { millis := (TIMESTAMP_BASE - 50) * 1000, rand := 0 } }
          { nextFrameNo := 1, lastSentFrameNo := 0, pageSize := UNSET_PAGE_SIZE }).1 =
        Except.ok RestoreAction.none ∧
      (restore_from (fun c _ _ => some c)
          { tombstone := some 100,
            generation := { millis := (TIMESTAMP_BASE - 50) * 1000, rand := 0 } }
          { nextFrameNo := 1, lastSentFrameNo := 0, pageSize := UNSET_PAGE_SIZE }).1 ≠
        Except.error RestoreErr.tombstoned ∧
      generation_to_timestamp { millis := (TIMESTAMP_BASE - 50) * 1000, rand := 0 } =
        some { seconds := 50, nanos := 999999999 } ∧
      (50 : Nat) ≤ i64ToU64 100 := by
  refine ⟨by decide, by decide, by decide, by decide⟩

/-- C3.  Fast-path evaluation exhibiting the off-by-one: with equal
change counters and local WAL frame count W = 5 equal to the last
consistent remote frame, restore_from returns ReuseGeneration as the
claim says, but reset_frames(wal_pages + 1) leaves next_frame_no = 7 =
W + 2, not W + 1 = 6 as the claim (and the code's own reset_frames
convention, whose argument is a last valid frame as in
rollback_to_frame and register_last_valid_frame) requires. -/
theorem restore_fast_path_off_by_one :
    restore_from (fun c _ _ => some c)
        { localDb := some { pageSize := some 4096, changeCounter := some [0, 0, 0, 7] },
          remoteChangeCounter := some [0, 0, 0, 7],
          localWal := some (4096, 5),
          listing := [[{ key := ("d-g/1-5-9.raw").toList, content := [] }]],
          verifyCrc := false }
        { nextFrameNo := 1, lastSentFrameNo := 0, pageSize := UNSET_PAGE_SIZE } =
      (Except.ok RestoreAction.reuseGeneration,
        { nextFrameNo := 7, lastSentFrameNo := 0, pageSize := 4096 }, []) ∧
      (7 : Nat) ≠ 5 + 1 := by
  exact ⟨by decide, by decide⟩

/-- The replay-visible part of a page-loop state: everything except the
loop-internal transaction cache, frame cursor and break flag (which the
source drops when the for loop over one listing page ends). -/
def pageVisible (ps : PageState) :
    Nat × Bool × List (List (Nat × List Nat)) × List (List Char) × Option RestoreErr :=
  (ps.checksum, ps.applied, ps.writes, ps.processed, ps.err)

theorem processObj_stuck (vf : Nat → List Nat → List Nat → Option Nat) (vc : Bool)
    (psz lc : Nat) (ps : PageState) (obj : S3Obj)
    (h : ps.halted = true ∨ ps.err.isSome = true) :
    processObj vf vc psz lc ps obj = ps := by
  unfold processObj
  rw [if_pos h]

theorem processObjs_stuck (vf : Nat → List Nat → List Nat → Option Nat) (vc : Bool)
    (psz lc : Nat) (objs : List S3Obj) (ps : PageState)
    (h : ps.halted = true ∨ ps.err.isSome = true) :
    processObjs vf vc psz lc objs ps = ps := by
  induction objs with
  | nil => rfl
  | cons o os ih =>
      unfold processObjs at ih ⊢
      rw [List.foldl_cons, processObj_stuck vf vc psz lc ps o h]
      exact ih

/-- C5 (amended).  Within one listing page, a batch whose parsed first
frame number differs from last-received + 1 stops the replay of that
page: the page's object loop run on the objects up to the gap and on
the whole page produce the same database writes, the same set of
streamed batches, the same applied flag, checksum and error — neither
the gap batch nor any batch after it in the same page contributes a
page to the database file, while all flushes performed up to the gap
remain.  Across listing pages the claim as stated fails, because the
source resets last_received_frame_no to 0 for each new page (see the
counterexample theorem). -/
theorem gap_stops_page_replay (vf : Nat → List Nat → List Nat → Option Nat) (vc : Bool)
    (psz lc : Nat) (pre rest : List S3Obj) (B : S3Obj) (s : PageState)
    (f l ts : Nat) (ck : CompressionKind)
    (hparse : parse_frame_range B.key = some (f, l, ts, ck))
    (hgap : f ≠ (processObjs vf vc psz lc pre s).lastReceived + 1) :
    pageVisible (processObjs vf vc psz lc (pre ++ B :: rest) s) =
      pageVisible (processObjs vf vc psz lc pre s) := by
  have happ : processObjs vf vc psz lc (pre ++ B :: rest) s =
      processObjs vf vc psz lc (B :: rest) (processObjs vf vc psz lc pre s) := by
    unfold processObjs
    rw [List.foldl_append]
  rw [happ]
  by_cases hH : (processObjs vf vc psz lc pre s).halted = true ∨
      (processObjs vf vc psz lc pre s).err.isSome = true
  · rw [processObjs_stuck vf vc psz lc _ _ hH]
  · push_neg at hH
    have hB : processObj vf vc psz lc (processObjs vf vc psz lc pre s) B =
        { processObjs vf vc psz lc pre s with halted := true } := by
      unfold processObj
      rw [if_neg (by
        intro hor
        rcases hor with hor | hor
        · exact hH.1 hor
        · exact hH.2 hor)]
      rw [hparse]
      simp only [if_pos hgap]
    have hcons : processObjs vf vc psz lc (B :: rest)
        (processObjs vf vc psz lc pre s) =
          processObjs vf vc psz lc rest
            (processObj vf vc psz lc (processObjs vf vc psz lc pre s) B) := rfl
    rw [hcons, hB, processObjs_stuck vf vc psz lc rest _ (Or.inl rfl)]
    rfl

theorem gap_stops_page_replay_witness :
    pageVisible (processObjs (fun c _ _ => some c) false 1 5
        ([] ++ { key := ("x/2-2-1.raw").toList, content := [] } ::
          ([] : List S3Obj))
        { checksum := 0, pending := [], lastReceived := 0, applied := false,
          writes := [], processed := [], halted := false, err := Option.none }) =
      pageVisible (processObjs (fun c _ _ => some c) false 1 5 []
        { checksum := 0, pending := [], lastReceived := 0, applied := false,
          writes := [], processed := [], halted := false, err := Option.none }) :=
  gap_stops_page_replay (fun c _ _ => some c) false 1 5 [] []
    { key := ("x/2-2-1.raw").toList, content := [] }
    { checksum := 0, pending := [], lastReceived := 0, applied := false,
      writes := [], processed := [], halted := false, err := Option.none }
    2 2 1 CompressionKind.none (by decide) (by decide)

/-- C5 counterexample.  A paginated listing whose first page holds only
the gap batch d-g/010-2-5.raw (parsed first frame 10, expected 1) and
whose second page holds the later key d-g/1-1-5.raw (the keys are in
ascending lexicographic order, as an object store lists them) makes
restore_from stop the first page at the gap and then — because the
source resets last_received_frame_no to 0 for the new page — stream the
later batch and flush its page 1 to the database file: a batch listed
after the gap contributes a page, refuting the claim as stated. -/
theorem gap_abort_violation :
    parse_frame_range ("d-g/010-2-5.raw").toList = some (10, 2, 5, CompressionKind.none) ∧
      (10 : Nat) ≠ 0 + 1 ∧
      restore_from (fun c _ _ => some c)
          { remoteChangeCounter := some [0, 0, 0, 1],
            meta := some (1, 0),
            listing :=
              [[{ key := ("d-g/010-2-5.raw").toList, content := [] }],
                [{ key := ("d-g/1-1-5.raw").toList,
                   content := [0, 0, 0, 1, 0, 0, 0, 1, 0, 0, 0, 0, 0, 0, 0, 0,
                     0, 0, 0, 0, 0, 0, 0, 0, 171] }]],
            verifyCrc := false }
          { nextFrameNo := 1, lastSentFrameNo := 0, pageSize := UNSET_PAGE_SIZE } =
        (Except.ok RestoreAction.snapshotMainDbFile,
          { nextFrameNo := 1, lastSentFrameNo := 0, pageSize := 1 }, [[(1, [171])]]) ∧
      (replayPages (fun c _ _ => some c) false 1 1
          [[{ key := ("d-g/010-2-5.raw").toList, content := [] }],
            [{ key := ("d-g/1-1-5.raw").toList,
               content := [0, 0, 0, 1, 0, 0, 0, 1, 0, 0, 0, 0, 0, 0, 0, 0,
                 0, 0, 0, 0, 0, 0, 0, 0, 171] }]]
          0 false [] []).processed = [("d-g/1-1-5.raw").toList] := by
  exact ⟨by decide, by decide, by decide, by decide⟩

end Bottomless
